import Mathlib

/-!
Shallow embedding of `mu4/notation/internal/notation.cpp` (MuseScore's MU4
presentation layer, class `Notation`).

Geometry uses exact integer coordinates (`Int`): the source uses `qreal`, but
every claim here is order-theoretic or structural, never about rounding.
Painter calls are recorded as an explicit trace (`List PaintOp`), one entry per
`QPainter` call issued by the code; the engine-side `element->draw(painter)`
callback is recorded as a single `drawElement` entry.  The reset of the
per-element `itemDiscovered` hit-testing flag in `paintElements` mutates engine
state, not the painter, so it does not appear in the painter trace.

A `Notation` whose `m_score` is null is modelled with `score = none`; a C++
member call through the null score pointer has no defined result and is
modelled as `Option.none` in the corresponding accessor.
-/

/-- 2-D point, as in `QPointF` (exact coordinates). -/
structure Point where
  x : Int
  y : Int
deriving DecidableEq, Repr

/-- Unary negation of a point, as in `painter->translate(-pagePosition)`. -/
def Point.neg (p : Point) : Point := ⟨-p.x, -p.y⟩

/-- Axis-aligned rectangle in the `QRectF` representation: origin plus size. -/
structure Rect where
  x : Int
  y : Int
  w : Int
  h : Int
deriving DecidableEq, Repr

def Rect.left (r : Rect) : Int := r.x

def Rect.top (r : Rect) : Int := r.y

def Rect.right (r : Rect) : Int := r.x + r.w

def Rect.bottom (r : Rect) : Int := r.y + r.h

/-- `QRectF::translated(p)`: same size, origin shifted by `p`. -/
def Rect.translated (r : Rect) (p : Point) : Rect :=
  { r with x := r.x + p.x, y := r.y + p.y }

/-- `QRectF::adjust(dx1, dy1, dx2, dy2)`: adds `dx1, dy1` to the left/top edge
and `dx2, dy2` to the right/bottom edge. -/
def Rect.adjust (r : Rect) (dx1 dy1 dx2 dy2 : Int) : Rect :=
  { x := r.x + dx1, y := r.y + dy1, w := r.w + dx2 - dx1, h := r.h + dy2 - dy1 }

/-- `QRectF::isEmpty()`: true when width or height is not positive. -/
def Rect.isEmpty (r : Rect) : Prop := r.w ≤ 0 ∨ r.h ≤ 0

instance (r : Rect) : Decidable r.isEmpty := by unfold Rect.isEmpty; infer_instance

/-- The default-constructed `QRect()` returned by `previewRect` when the score
has no pages. -/
def Rect.nullRect : Rect := ⟨0, 0, 0, 0⟩

/-- Colors are opaque to this layer (supplied by the configuration
collaborator); an abstract code stands for a `QColor`. -/
abbrev Color := Nat

/-- The global `MScore::frameMarginColor` used for the inner page frame.  Its
actual value is engine configuration; only its identity matters here. -/
def frameMarginColor : Color := 1

/-- `Ms::Element`, reduced to what `Notation::paintElements` reads: visibility,
page position, and an identity (`eid`) standing for the drawable content. -/
structure Element where
  visible : Bool
  pagePos : Point
  eid : Nat
deriving DecidableEq, Repr

/-- `Ms::Page`, reduced to what the painting code reads: position, bounding
boxes, margins (`lm/tm/rm/bm`), recto/verso parity, and the drawable
elements in engine order. -/
structure Page where
  pos : Point
  bbox : Rect
  abbox : Rect
  canvasBoundingRect : Rect
  lm : Int
  tm : Int
  rm : Int
  bm : Int
  isOdd : Bool
  elements : List Element
deriving DecidableEq, Repr

/-- The canvas rectangle computed in `Notation::paintPages`:
`page->abbox().translated(page->pos())`. -/
def Page.pageRect (p : Page) : Rect := p.abbox.translated p.pos

/-- `Ms::LayoutMode` (also exposed as `ViewMode` by the MU4 layer). -/
inductive LayoutMode where
  | PAGE
  | FLOAT
  | LINE
  | SYSTEM
deriving DecidableEq, Repr

abbrev ViewMode := LayoutMode

/-- Calendar date as held by `QDate`; `⟨0, 0, 0⟩` plays the role of the
null/invalid `QDate`. -/
structure QDate where
  year : Int
  month : Int
  day : Int
deriving DecidableEq, Repr

/-- The null (invalid) `QDate`, as returned by a failed parse. -/
def QDate.nullDate : QDate := ⟨0, 0, 0⟩

def isLeapYear (y : Int) : Bool :=
  (y % 4 == 0 && y % 100 != 0) || (y % 400 == 0)

def daysInMonth (y : Int) (m : Int) : Int :=
  if m == 2 then (if isLeapYear y then 29 else 28)
  else if m == 4 || m == 6 || m == 9 || m == 11 then 30
  else 31

def validYMD (y m d : Int) : Bool :=
  1 ≤ y && 1 ≤ m && m ≤ 12 && 1 ≤ d && d ≤ daysInMonth y m

/-- Short month names used by `Qt::TextDate` formatting (C locale). -/
def shortMonthName (m : Int) : String :=
  if m == 1 then "Jan" else if m == 2 then "Feb" else if m == 3 then "Mar"
  else if m == 4 then "Apr" else if m == 5 then "May" else if m == 6 then "Jun"
  else if m == 7 then "Jul" else if m == 8 then "Aug" else if m == 9 then "Sep"
  else if m == 10 then "Oct" else if m == 11 then "Nov" else "Dec"

/-- Day of week by Sakamoto's method; 0 is Sunday.  Defined for the positive
years accepted by `validYMD`. -/
def dayOfWeek (y m d : Int) : Int :=
  let t : List Int := [0, 3, 2, 5, 0, 3, 5, 1, 4, 6, 2, 4]
  let y' := if m < 3 then y - 1 else y
  (y' + y' / 4 - y' / 100 + y' / 400 + t.getD (m - 1).toNat 0 + d) % 7

def shortDayName (w : Int) : String :=
  if w == 0 then "Sun" else if w == 1 then "Mon" else if w == 2 then "Tue"
  else if w == 3 then "Wed" else if w == 4 then "Thu" else if w == 5 then "Fri"
  else "Sat"

/-- `QDate::toString()` with no format argument: `Qt::TextDate`, i.e. the
pattern `ddd MMM d yyyy` ("Wed Jan 1 2020").  This is the formatting used by
`Notation::setMetaInfo` for the creation date. -/
def QDate.toStringTextDate (dt : QDate) : String :=
  if validYMD dt.year dt.month dt.day then
    shortDayName (dayOfWeek dt.year dt.month dt.day) ++ " "
      ++ shortMonthName dt.month ++ " " ++ toString dt.day ++ " " ++ toString dt.year
  else
    ""

/-- Splits a character list at every `-`, keeping empty groups (the behavior
of splitting a string on a one-character separator). -/
def splitOnDash : List Char → List (List Char)
  | [] => [[]]
  | c :: rest =>
    let r := splitOnDash rest
    if c = '-' then [] :: r
    else
      match r with
      | [] => [[c]]
      | g :: gs => (c :: g) :: gs

def parseDigitsAux : List Char → Nat → Option Nat
  | [], acc => some acc
  | c :: rest, acc =>
    if '0' ≤ c && c ≤ '9' then parseDigitsAux rest (acc * 10 + (c.toNat - 48))
    else none

/-- Parses a non-empty all-digit character list as a decimal number. -/
def parseDigits : List Char → Option Nat
  | [] => none
  | c :: rest => parseDigitsAux (c :: rest) 0

/-- `QDate::fromString(s, Qt::ISODate)`: accepts exactly `yyyy-MM-dd` with a
valid calendar date, returning the null date on any other input.  This is the
parsing used by `Notation::metaInfo` for the creation date. -/
def QDate.fromStringISO (s : String) : QDate :=
  match splitOnDash s.data with
  | [ys, ms, ds] =>
    match parseDigits ys, parseDigits ms, parseDigits ds with
    | some yv, some mv, some dv =>
      if ys.length == 4 && ms.length == 2 && ds.length == 2 && validYMD yv mv dv then
        ⟨yv, mv, dv⟩
      else QDate.nullDate
    | _, _, _ => QDate.nullDate
  | _ => QDate.nullDate

/-- `mu::notation::Meta`: the flat metadata projection built by `metaInfo`. -/
structure Meta where
  title : String
  subtitle : String
  composer : String
  lyricist : String
  copyright : String
  translator : String
  arranger : String
  creationDate : QDate
deriving DecidableEq, Repr

/-- Score metadata tags: association list keyed by tag name, insertion
overwrites (as `QMap::insert` does). -/
def insertTag : List (String × String) → String → String → List (String × String)
  | [], k, v => [(k, v)]
  | (k0, v0) :: rest, k, v =>
    if k0 == k then (k, v) :: rest else (k0, v0) :: insertTag rest k v

def lookupTag (tags : List (String × String)) (k : String) : String :=
  match tags.find? (fun kv => kv.1 == k) with
  | some kv => kv.2
  | none => ""

/-- `Ms::Score`, reduced to the operations `Notation` invokes on it: title,
metadata tags, pages in layout order, layout mode, and the `printing` /
`showPageborders` flags.  The title is produced by the engine from sources
(title frame text, work-title tag) disjoint from the seven keys below, so it
is held as its own field. -/
structure Score where
  title : String
  metaTags : List (String × String)
  pages : List Page
  layoutMode : LayoutMode
  printing : Bool
  showPageborders : Bool
deriving DecidableEq, Repr

/-- `Score::metaTag(key)`: the stored tag, or the empty string. -/
def Score.metaTag (s : Score) (k : String) : String := lookupTag s.metaTags k

/-- `Score::setMetaTag(key, value)`. -/
def Score.setMetaTag (s : Score) (k v : String) : Score :=
  { s with metaTags := insertTag s.metaTags k v }

/-- `mu::ValCh<bool>`: an observable boolean; `set` assigns the value and
sends one change notification, counted here. -/
structure ValCh where
  val : Bool
  notificationCount : Nat
deriving DecidableEq, Repr

def ValCh.set (v : ValCh) (x : Bool) : ValCh :=
  { val := x, notificationCount := v.notificationCount + 1 }

/-- The `Notation` orchestrator state read by the claims: the attached score
(null modelled as `none`) and the observable `m_opened`. -/
structure Notation where
  score : Option Score
  opened : ValCh
deriving DecidableEq, Repr

/-- Events observable from `Notation::setViewMode`: the synchronous
`Score::doLayout` call and the unified `notationChanged` notification. -/
inductive NotationEvent where
  | doLayout
  | notationChanged
deriving DecidableEq, Repr

namespace Notation

/-- The score-level body of `Notation::metaInfo`: reads the title and the
seven fixed metadata keys; the creation date is parsed with `Qt::ISODate`. -/
def metaInfoScore (s : Score) : Meta :=
  { title := s.title
    subtitle := s.metaTag "subtitle"
    composer := s.metaTag "composer"
    lyricist := s.metaTag "lyricist"
    copyright := s.metaTag "copyright"
    translator := s.metaTag "translator"
    arranger := s.metaTag "arranger"
    creationDate := QDate.fromStringISO (s.metaTag "creationDate") }

/-- `Notation::metaInfo`.  With no attached score the C++ dereferences the
null `m_score` (no defined result): `none`. -/
def metaInfo (n : Notation) : Option Meta :=
  n.score.map metaInfoScore

/-- The score-level body of `Notation::setMetaInfo`: writes the seven fixed
keys; the creation date is written with `QDate::toString()` (Qt::TextDate). -/
def setMetaInfoScore (s : Score) (meta : Meta) : Score :=
  (((((((s.setMetaTag "subtitle" meta.subtitle).setMetaTag
      "composer" meta.composer).setMetaTag
      "lyricist" meta.lyricist).setMetaTag
      "copyright" meta.copyright).setMetaTag
      "translator" meta.translator).setMetaTag
      "arranger" meta.arranger).setMetaTag
      "creationDate" meta.creationDate.toStringTextDate)

/-- `Notation::setMetaInfo`: with no attached score the C++ dereferences the
null `m_score` (no defined result): `none`. -/
def setMetaInfo (n : Notation) (meta : Meta) : Option Notation :=
  n.score.map fun s => { n with score := some (setMetaInfoScore s meta) }

/-- `Notation::setViewMode`: no-op without a score; otherwise sets the layout
mode, runs a synchronous `doLayout`, and notifies once.  The relayout's effect
on page geometry belongs to the external engine and is recorded as the
`doLayout` event. -/
def setViewMode (n : Notation) (viewMode : ViewMode) : Notation × List NotationEvent :=
  match n.score with
  | none => (n, [])
  | some s =>
    ({ n with score := some { s with layoutMode := viewMode } },
     [NotationEvent.doLayout, NotationEvent.notationChanged])

/-- `Notation::viewMode`: `PAGE` without a score, else the engine's mode. -/
def viewMode (n : Notation) : ViewMode :=
  match n.score with
  | none => LayoutMode.PAGE
  | some s => s.layoutMode

/-- `Notation::previewRect`: reads `m_score->pages()`; with no attached score
the C++ dereferences the null `m_score` (no defined result): `none`.  With no
pages it returns the default `QRect()`; else the first page's `bbox()`. -/
def previewRect (n : Notation) : Option Rect :=
  n.score.map fun s =>
    match s.pages with
    | [] => Rect.nullRect
    | page :: _ => page.bbox

/-- `Notation::setOpened`: deduplicated observable write. -/
def setOpened (n : Notation) (opened : Bool) : Notation :=
  if n.opened.val == opened then n
  else { n with opened := n.opened.set opened }

end Notation

/-- `QPainter` configuration supplied by the configuration collaborator:
`pageColor()`, `borderColor()`, `borderWidth()`. -/
structure Configuration where
  pageColor : Color
  borderColor : Color
  borderWidth : Int
deriving DecidableEq, Repr

/-- One recorded `QPainter` call (plus the engine's `element->draw` callback
and the closing `m_interaction->paint` overlay delegation). -/
inductive PaintOp where
  | translate (offset : Point)
  | setBrushNone
  | setPen (color : Color) (width : Int)
  | setPenColor (color : Color)
  | drawRect (r : Rect)
  | drawLine (x1 y1 x2 y2 : Int)
  | fillRect (r : Rect) (color : Color)
  | drawElement (e : Element)
  | interactionOverlay
deriving DecidableEq, Repr

/-- The draw calls of a trace: the subtrace that puts ink on the surface
(rectangles, lines, fills, element self-draws), dropping pen/brush/transform
bookkeeping. -/
def drawCalls (ops : List PaintOp) : List PaintOp :=
  ops.filter fun op =>
    match op with
    | PaintOp.drawRect _ => true
    | PaintOp.drawLine _ _ _ _ => true
    | PaintOp.fillRect _ _ => true
    | PaintOp.drawElement _ => true
    | _ => false

/-- Number of `drawLine` calls in a trace. -/
def lineDrawCount (ops : List PaintOp) : Nat :=
  (ops.filter fun op =>
    match op with
    | PaintOp.drawLine _ _ _ _ => true
    | _ => false).length

namespace Notation

/-- `Notation::paintElements`: skips invisible elements; for each visible one,
translates to its page position, lets it draw itself, and translates back.
(The `itemDiscovered` reset touches engine state, not the painter.) -/
def paintElements : List Element → List PaintOp
  | [] => []
  | e :: rest =>
    if !e.visible then paintElements rest
    else
      PaintOp.translate e.pagePos :: PaintOp.drawElement e
        :: PaintOp.translate e.pagePos.neg :: paintElements rest

/-- `Notation::paintPageBorder`: outer frame always; inner margin frame and
(for even pages) the right-margin vertical rule only when the score's
`showPageborders` flag is set. -/
def paintPageBorder (cfg : Configuration) (s : Score) (page : Page) : List PaintOp :=
  let boundingRect := page.canvasBoundingRect
  [PaintOp.setBrushNone, PaintOp.setPen cfg.borderColor cfg.borderWidth,
   PaintOp.drawRect boundingRect]
  ++ (if !s.showPageborders then []
      else
        let inner := boundingRect.adjust page.lm page.tm (-page.rm) (-page.bm)
        [PaintOp.setBrushNone, PaintOp.setPenColor frameMarginColor,
         PaintOp.drawRect inner]
        ++ (if !page.isOdd then
              [PaintOp.drawLine inner.right 0 inner.right inner.bottom]
            else []))

/-- The loop body of `Notation::paintPages` for one non-culled page: optional
border, translate to the page, background fill, elements, translate back. -/
def paintOnePage (cfg : Configuration) (s : Score) (paintBorders : Bool)
    (page : Page) : List PaintOp :=
  (if paintBorders then paintPageBorder cfg s page else [])
  ++ [PaintOp.translate page.pos, PaintOp.fillRect page.bbox cfg.pageColor]
  ++ paintElements page.elements
  ++ [PaintOp.translate page.pos.neg]

/-- `Notation::paintPages`: iterates the given pages in order; `continue`s past
a page whose canvas rect ends left of the frame, `break`s at the first page
whose canvas rect starts right of the frame. -/
def paintPages (cfg : Configuration) (s : Score) (frameRect : Rect)
    (paintBorders : Bool) : List Page → List PaintOp
  | [] => []
  | page :: rest =>
    if page.pageRect.right < frameRect.left then
      paintPages cfg s frameRect paintBorders rest
    else if frameRect.right < page.pageRect.left then []
    else paintOnePage cfg s paintBorders page
      ++ paintPages cfg s frameRect paintBorders rest

/-- `Notation::paint`: early return on an empty page list; LINE/SYSTEM paint
only the first page without borders; FLOAT/PAGE paint all pages with borders
unless the score is printing; the interaction overlay is drawn last. -/
def paint (cfg : Configuration) (s : Score) (frameRect : Rect) : List PaintOp :=
  match s.pages with
  | [] => []
  | first :: rest =>
    (match s.layoutMode with
     | LayoutMode.LINE => paintPages cfg s frameRect false [first]
     | LayoutMode.SYSTEM => paintPages cfg s frameRect false [first]
     | LayoutMode.FLOAT => paintPages cfg s frameRect (!s.printing) (first :: rest)
     | LayoutMode.PAGE => paintPages cfg s frameRect (!s.printing) (first :: rest))
    ++ [PaintOp.interactionOverlay]

end Notation

/-- Horizontal intersection of a page's canvas rect with the visible frame:
the page is neither entirely left of the frame (`pageRect.right < frame.left`)
nor entirely right of it (`frame.right < pageRect.left`). -/
def intersectsH (frameRect : Rect) (page : Page) : Prop :=
  frameRect.left ≤ page.pageRect.right ∧ page.pageRect.left ≤ frameRect.right

instance (fr : Rect) (p : Page) : Decidable (intersectsH fr p) := by
  unfold intersectsH; infer_instance

/-- Pages laid out with strictly increasing horizontal extents: both edges of
the canvas rects strictly increase along the list. -/
def hStrictlyIncreasing (pages : List Page) : Prop :=
  pages.Pairwise fun a b =>
    a.pageRect.left < b.pageRect.left ∧ a.pageRect.right < b.pageRect.right

/-- A `Meta` with every field empty, the value the spec says a score-less
`metaInfo()` returns. -/
def Meta.emptyMeta : Meta :=
  { title := "", subtitle := "", composer := "", lyricist := "", copyright := ""
    translator := "", arranger := "", creationDate := QDate.nullDate }

/-- Sample score used by concrete witnesses. -/
def sampleScore : Score :=
  { title := "Symphony"
    metaTags := [("workTitle", "Symphony"), ("composer", "Old Composer")]
    pages := []
    layoutMode := LayoutMode.FLOAT
    printing := false
    showPageborders := true }

/-- A notation with no attached score (null `m_score`). -/
def noScoreN : Notation := { score := none, opened := ⟨false, 0⟩ }

/-- A notation with `sampleScore` attached. -/
def sampleN : Notation := { score := some sampleScore, opened := ⟨false, 0⟩ }

/-- Painter configuration used by concrete witnesses. -/
def cfg0 : Configuration := { pageColor := 7, borderColor := 3, borderWidth := 1 }

/-- Visible frame used by concrete witnesses. -/
def frame0 : Rect := ⟨0, 0, 100, 100⟩

def el0 : Element := { visible := true, pagePos := ⟨5, 5⟩, eid := 0 }

def elHidden : Element := { visible := false, pagePos := ⟨6, 6⟩, eid := 1 }

/-- First sample page (odd), inside `frame0`. -/
def samplePage : Page :=
  { pos := ⟨0, 0⟩, bbox := ⟨0, 0, 50, 80⟩, abbox := ⟨0, 0, 50, 80⟩
    canvasBoundingRect := ⟨0, 0, 50, 80⟩, lm := 5, tm := 5, rm := 5, bm := 5
    isOdd := true, elements := [el0, elHidden] }

/-- Second sample page, strictly to the right of `samplePage`. -/
def samplePage2 : Page :=
  { samplePage with pos := ⟨60, 0⟩, isOdd := false, elements := [el0] }

/-- Third sample page, entirely right of `frame0` (starts at x = 120). -/
def samplePage3 : Page :=
  { samplePage with pos := ⟨120, 0⟩, isOdd := true, elements := [] }

/-- A score with three laid-out pages, used by the painting witnesses. -/
def pagedScore : Score :=
  { sampleScore with pages := [samplePage, samplePage2, samplePage3] }

/-- Concrete `Meta` used by the metadata theorems. -/
def m4 : Meta :=
  { title := "New Title", subtitle := "sub", composer := "comp", lyricist := "lyr"
    copyright := "cpy", translator := "tra", arranger := "arr"
    creationDate := ⟨2020, 1, 1⟩ }

/-- C5 (amended): with no attached score, `metaInfo()` and `previewRect()`
dereference the null score pointer and have no defined result, rather than
returning empty defaults. -/
theorem metaInfo_previewRect_noScore (n : Notation) (h : n.score = none) :
    n.metaInfo = none ∧ n.previewRect = none := by
  simp [Notation.metaInfo, Notation.previewRect, h]

theorem metaInfo_previewRect_noScore_witness :
    noScoreN.metaInfo = none ∧ noScoreN.previewRect = none :=
  metaInfo_previewRect_noScore noScoreN rfl

/-- C5 (counterexample): on a concrete `Notation` with no attached score,
`metaInfo()` does not return an all-empty `Meta` and `previewRect()` does not
return an empty rectangle — neither call has a defined result at all. -/
theorem metaInfo_noScore_cex :
    noScoreN.metaInfo = none ∧ noScoreN.metaInfo ≠ some Meta.emptyMeta
    ∧ noScoreN.previewRect = none ∧ noScoreN.previewRect ≠ some Rect.nullRect := by
  refine ⟨rfl, by simp [noScoreN, Notation.metaInfo], rfl,
    by simp [noScoreN, Notation.previewRect]⟩

/-- C6: `setViewMode` is a no-op (no state change, no events) without a score;
with a score it sets the layout mode, performs the synchronous relayout, and
emits the unified change notification exactly once. -/
theorem setViewMode_contract (n : Notation) (mode : ViewMode) :
    (n.score = none → n.setViewMode mode = (n, []))
    ∧ (∀ s : Score, n.score = some s →
        (n.setViewMode mode).1
          = { n with score := some { s with layoutMode := mode } }
        ∧ (n.setViewMode mode).2
          = [NotationEvent.doLayout, NotationEvent.notationChanged]
        ∧ (n.setViewMode mode).2.count NotationEvent.notationChanged = 1) := by
  constructor
  · intro h
    simp [Notation.setViewMode, h]
  · intro s h
    refine ⟨?_, ?_, ?_⟩ <;> simp [Notation.setViewMode, h, List.count_cons]

theorem setViewMode_contract_witness :
    noScoreN.setViewMode LayoutMode.LINE = (noScoreN, [])
    ∧ (sampleN.setViewMode LayoutMode.LINE).2.count NotationEvent.notationChanged = 1 :=
  ⟨(setViewMode_contract noScoreN LayoutMode.LINE).1 rfl,
   ((setViewMode_contract sampleN LayoutMode.LINE).2 sampleScore rfl).2.2⟩

/-- C7: `setOpened` is deduplicated — writing the current value changes
nothing and sends no notification; writing the other value stores it and
sends exactly one notification. -/
theorem setOpened_dedup (n : Notation) (x : Bool) :
    (n.opened.val = x → n.setOpened x = n)
    ∧ (n.opened.val ≠ x →
        (n.setOpened x).opened.val = x
        ∧ (n.setOpened x).opened.notificationCount
            = n.opened.notificationCount + 1) := by
  constructor
  · intro h
    simp [Notation.setOpened, h]
  · intro h
    have hb : (n.opened.val == x) = false := by
      simp [h]
    simp [Notation.setOpened, hb, ValCh.set]

theorem setOpened_dedup_witness :
    (noScoreN.setOpened false = noScoreN)
    ∧ (noScoreN.setOpened true).opened.val = true
    ∧ (noScoreN.setOpened true).opened.notificationCount
        = noScoreN.opened.notificationCount + 1 :=
  ⟨(setOpened_dedup noScoreN false).1 rfl,
   ((setOpened_dedup noScoreN true).2 (by decide)).1,
   ((setOpened_dedup noScoreN true).2 (by decide)).2⟩

/-- C8: `viewMode()` returns `PAGE` when no score is attached, and the
engine's current layout mode otherwise. -/
theorem viewMode_default_page (n : Notation) :
    (n.score = none → n.viewMode = LayoutMode.PAGE)
    ∧ (∀ s : Score, n.score = some s → n.viewMode = s.layoutMode) := by
  constructor
  · intro h
    simp [Notation.viewMode, h]
  · intro s h
    simp [Notation.viewMode, h]

theorem viewMode_default_page_witness :
    noScoreN.viewMode = LayoutMode.PAGE ∧ sampleN.viewMode = LayoutMode.FLOAT :=
  ⟨(viewMode_default_page noScoreN).1 rfl,
   (viewMode_default_page sampleN).2 sampleScore rfl⟩

/-- C9: with an attached score, `previewRect()` returns the default (empty)
rectangle when the score has no pages, and exactly the first page's bounding
box otherwise. -/
theorem previewRect_first_page (n : Notation) (s : Score) (hs : n.score = some s) :
    (s.pages = [] → n.previewRect = some Rect.nullRect ∧ Rect.nullRect.isEmpty)
    ∧ (∀ page rest, s.pages = page :: rest → n.previewRect = some page.bbox) := by
  constructor
  · intro h
    refine ⟨?_, by decide⟩
    simp [Notation.previewRect, hs, h]
  · intro page rest h
    simp [Notation.previewRect, hs, h]

theorem previewRect_first_page_witness :
    (sampleN.previewRect = some Rect.nullRect ∧ Rect.nullRect.isEmpty)
    ∧ { sampleN with score := some pagedScore }.previewRect = some samplePage.bbox :=
  ⟨(previewRect_first_page sampleN sampleScore rfl).1 rfl,
   (previewRect_first_page { sampleN with score := some pagedScore } pagedScore rfl).2
     samplePage [samplePage2, samplePage3] rfl⟩

/-- Concatenation of per-page paint traces, in page order. -/
def pagesConcatMap (f : Page → List PaintOp) : List Page → List PaintOp
  | [] => []
  | p :: ps => f p ++ pagesConcatMap f ps

instance (pages : List Page) : Decidable (hStrictlyIncreasing pages) := by
  unfold hStrictlyIncreasing
  infer_instance

/-- C1: for pages laid out with strictly increasing horizontal extents, the
`paintPages` loop paints exactly the pages whose canvas rectangles
horizontally intersect the visible frame, in layout order: the `continue`
culls every page entirely left of the frame, and the `break` at the first page
starting beyond the frame's right edge loses no intersecting page. -/
theorem paintPages_culls_exactly (cfg : Configuration) (s : Score) (frameRect : Rect)
    (paintBorders : Bool) (pages : List Page) (hmono : hStrictlyIncreasing pages) :
    Notation.paintPages cfg s frameRect paintBorders pages
      = pagesConcatMap (Notation.paintOnePage cfg s paintBorders)
          (pages.filter fun p => decide (intersectsH frameRect p)) := by
  induction pages with
  | nil => rfl
  | cons page rest ih =>
    rcases List.pairwise_cons.mp hmono with ⟨hhead, htail⟩
    by_cases h1 : page.pageRect.right < frameRect.left
    · have hdec : decide (intersectsH frameRect page) = false :=
        decide_eq_false fun hi => absurd h1 (not_lt.mpr hi.1)
      simp only [Notation.paintPages, if_pos h1, List.filter_cons, hdec,
        Bool.false_eq_true, if_false]
      exact ih htail
    · by_cases h2 : frameRect.right < page.pageRect.left
      · have hdec : decide (intersectsH frameRect page) = false :=
          decide_eq_false fun hi => absurd h2 (not_lt.mpr hi.2)
        have hrest : rest.filter (fun p => decide (intersectsH frameRect p)) = [] := by
          refine List.filter_eq_nil_iff.mpr fun q hq => ?_
          simp only [decide_eq_true_eq]
          exact fun hi => absurd hi.2 (not_le.mpr (lt_trans h2 (hhead q hq).1))
        simp only [Notation.paintPages, if_neg h1, if_pos h2, List.filter_cons, hdec,
          Bool.false_eq_true, if_false, hrest]
        rfl
      · have hdec : decide (intersectsH frameRect page) = true :=
          decide_eq_true ⟨not_lt.mp h1, not_lt.mp h2⟩
        simp only [Notation.paintPages, if_neg h1, if_neg h2, List.filter_cons, hdec,
          if_true]
        rw [ih htail]
        rfl

theorem paintPages_culls_exactly_witness :
    Notation.paintPages cfg0 sampleScore frame0 true
        [samplePage, samplePage2, samplePage3]
      = pagesConcatMap (Notation.paintOnePage cfg0 sampleScore true)
          ([samplePage, samplePage2, samplePage3].filter
            fun p => decide (intersectsH frame0 p)) :=
  paintPages_culls_exactly cfg0 sampleScore frame0 true
    [samplePage, samplePage2, samplePage3] (by decide)

/-- C2: `paint` with an empty page list is a no-op (empty trace); with pages,
LINE and SYSTEM modes paint only the first page with borders disabled, and
FLOAT and PAGE modes paint all pages with borders enabled exactly when the
score is not printing (the interaction overlay is delegated last). -/
theorem paint_dispatch (cfg : Configuration) (s : Score) (frameRect : Rect) :
    (s.pages = [] → Notation.paint cfg s frameRect = [])
    ∧ (∀ first rest, s.pages = first :: rest →
        ((s.layoutMode = LayoutMode.LINE ∨ s.layoutMode = LayoutMode.SYSTEM) →
          Notation.paint cfg s frameRect
            = Notation.paintPages cfg s frameRect false [first]
              ++ [PaintOp.interactionOverlay])
        ∧ ((s.layoutMode = LayoutMode.FLOAT ∨ s.layoutMode = LayoutMode.PAGE) →
          Notation.paint cfg s frameRect
            = Notation.paintPages cfg s frameRect (!s.printing) (first :: rest)
              ++ [PaintOp.interactionOverlay])) := by
  constructor
  · intro h
    simp [Notation.paint, h]
  · intro first rest h
    constructor
    · rintro (hm | hm) <;> simp [Notation.paint, h, hm]
    · rintro (hm | hm) <;> simp [Notation.paint, h, hm]

theorem paint_dispatch_witness :
    Notation.paint cfg0 sampleScore frame0 = []
    ∧ Notation.paint cfg0 pagedScore frame0
        = Notation.paintPages cfg0 pagedScore frame0 (!pagedScore.printing)
            [samplePage, samplePage2, samplePage3]
          ++ [PaintOp.interactionOverlay] :=
  ⟨(paint_dispatch cfg0 sampleScore frame0).1 rfl,
   (((paint_dispatch cfg0 pagedScore frame0).2 samplePage
      [samplePage2, samplePage3] rfl).2) (Or.inl rfl)⟩

/-- C3: with `showPageborders` set, an even page's border trace is exactly an
odd page's trace plus one `drawLine` (the vertical rule at the right margin),
so it has exactly one more line draw; with `showPageborders` unset, the only
draw call for either parity is the outer frame rectangle. -/
theorem paintPageBorder_parity (cfg : Configuration) (s : Score) (page : Page) :
    (s.showPageborders = true →
      Notation.paintPageBorder cfg s { page with isOdd := false }
        = Notation.paintPageBorder cfg s { page with isOdd := true }
          ++ [PaintOp.drawLine
                (page.canvasBoundingRect.adjust page.lm page.tm
                  (-page.rm) (-page.bm)).right 0
                (page.canvasBoundingRect.adjust page.lm page.tm
                  (-page.rm) (-page.bm)).right
                (page.canvasBoundingRect.adjust page.lm page.tm
                  (-page.rm) (-page.bm)).bottom]
      ∧ lineDrawCount (Notation.paintPageBorder cfg s { page with isOdd := false })
          = lineDrawCount (Notation.paintPageBorder cfg s { page with isOdd := true })
            + 1)
    ∧ (s.showPageborders = false →
        drawCalls (Notation.paintPageBorder cfg s page)
          = [PaintOp.drawRect page.canvasBoundingRect]) := by
  constructor
  · intro h
    constructor
    · simp [Notation.paintPageBorder, h]
    · simp [Notation.paintPageBorder, h, lineDrawCount, List.filter]
  · intro h
    simp [Notation.paintPageBorder, h, drawCalls, List.filter]

theorem paintPageBorder_parity_witness :
    lineDrawCount (Notation.paintPageBorder cfg0 sampleScore
        { samplePage with isOdd := false })
      = lineDrawCount (Notation.paintPageBorder cfg0 sampleScore
          { samplePage with isOdd := true }) + 1 :=
  ((paintPageBorder_parity cfg0 sampleScore samplePage).1 rfl).2

/-- Looking up a key other than the inserted one is unchanged by `insertTag`. -/
theorem lookupTag_insertTag_ne (tags : List (String × String)) (k k' v : String)
    (h : k' ≠ k) : lookupTag (insertTag tags k v) k' = lookupTag tags k' := by
  have hbk : (k == k') = false := beq_eq_false_iff_ne.mpr fun e => h e.symm
  induction tags with
  | nil =>
    simp [insertTag, lookupTag, List.find?, hbk]
  | cons head rest ih =>
    obtain ⟨k0, v0⟩ := head
    by_cases h0 : (k0 == k) = true
    · have hk0 : k0 = k := eq_of_beq h0
      simp [insertTag, lookupTag, List.find?, h0, hk0, hbk]
    · by_cases h0' : (k0 == k') = true
      · simp [insertTag, lookupTag, List.find?, h0, h0']
      · simp only [insertTag, h0, Bool.false_eq_true, if_false]
        simp only [lookupTag, List.find?, h0'] at ih ⊢
        exact ih

/-- `Score::setMetaTag` leaves every other key's `metaTag` unchanged. -/
theorem metaTag_setMetaTag_ne (s : Score) (k k' v : String) (h : k' ≠ k) :
    (s.setMetaTag k v).metaTag k' = s.metaTag k' := by
  simp [Score.setMetaTag, Score.metaTag, lookupTag_insertTag_ne _ _ _ _ h]

/-- C10: `setMetaInfo` writes only the seven fixed metadata keys; the score's
title is untouched, `metaInfo().title` still reflects the score afterwards,
and every metadata key outside the seven keeps its previous value. -/
theorem setMetaInfo_frame_title (n : Notation) (s : Score) (m : Meta)
    (hs : n.score = some s) :
    n.setMetaInfo m = some { n with score := some (Notation.setMetaInfoScore s m) }
    ∧ (Notation.setMetaInfoScore s m).title = s.title
    ∧ ((n.setMetaInfo m).bind Notation.metaInfo).map Meta.title = some s.title
    ∧ ∀ k, k ∉ ["subtitle", "composer", "lyricist", "copyright", "translator",
                "arranger", "creationDate"] →
        (Notation.setMetaInfoScore s m).metaTag k = s.metaTag k := by
  refine ⟨?_, ?_, ?_, ?_⟩
  · simp [Notation.setMetaInfo, hs]
  · simp [Notation.setMetaInfoScore, Score.setMetaTag]
  · simp [Notation.setMetaInfo, hs, Notation.metaInfo, Notation.metaInfoScore,
      Notation.setMetaInfoScore, Score.setMetaTag]
  · intro k hk
    simp only [List.mem_cons, List.not_mem_nil, or_false, not_or] at hk
    obtain ⟨h1, h2, h3, h4, h5, h6, h7⟩ := hk
    simp only [Notation.setMetaInfoScore]
    rw [metaTag_setMetaTag_ne _ _ _ _ h7, metaTag_setMetaTag_ne _ _ _ _ h6,
      metaTag_setMetaTag_ne _ _ _ _ h5, metaTag_setMetaTag_ne _ _ _ _ h4,
      metaTag_setMetaTag_ne _ _ _ _ h3, metaTag_setMetaTag_ne _ _ _ _ h2,
      metaTag_setMetaTag_ne _ _ _ _ h1]

theorem setMetaInfo_frame_title_witness :
    (Notation.setMetaInfoScore sampleScore m4).title = sampleScore.title
    ∧ (Notation.setMetaInfoScore sampleScore m4).metaTag "workTitle"
        = sampleScore.metaTag "workTitle" :=
  ⟨(setMetaInfo_frame_title sampleN sampleScore m4 rfl).2.1,
   (setMetaInfo_frame_title sampleN sampleScore m4 rfl).2.2.2 "workTitle" (by decide)⟩

/-- C4: the metadata round-trip loses the creation date.  `setMetaInfo` stores
the date with `QDate::toString()` (Qt::TextDate, "Wed Jan 1 2020") while
`metaInfo` parses the stored tag with `Qt::ISODate`, so the parse fails and the
date comes back null; the six string fields do round-trip verbatim. -/
theorem setMetaInfo_roundTrip_loses_creationDate :
    (Notation.setMetaInfoScore sampleScore m4).metaTag "creationDate"
      = "Wed Jan 1 2020"
    ∧ QDate.fromStringISO "2020-01-01" = ⟨2020, 1, 1⟩
    ∧ (Notation.metaInfoScore (Notation.setMetaInfoScore sampleScore m4)).creationDate
        = QDate.nullDate
    ∧ m4.creationDate = ⟨2020, 1, 1⟩
    ∧ (Notation.metaInfoScore (Notation.setMetaInfoScore sampleScore m4)).creationDate
        ≠ m4.creationDate
    ∧ Notation.metaInfoScore (Notation.setMetaInfoScore sampleScore m4) ≠ m4
    ∧ (Notation.metaInfoScore (Notation.setMetaInfoScore sampleScore m4)).subtitle
        = m4.subtitle
    ∧ (Notation.metaInfoScore (Notation.setMetaInfoScore sampleScore m4)).composer
        = m4.composer
    ∧ (Notation.metaInfoScore (Notation.setMetaInfoScore sampleScore m4)).lyricist
        = m4.lyricist
    ∧ (Notation.metaInfoScore (Notation.setMetaInfoScore sampleScore m4)).copyright
        = m4.copyright
    ∧ (Notation.metaInfoScore (Notation.setMetaInfoScore sampleScore m4)).translator
        = m4.translator
    ∧ (Notation.metaInfoScore (Notation.setMetaInfoScore sampleScore m4)).arranger
        = m4.arranger := by
  decide
